import Mathlib

/-!
Verification of the animation scheduling and interpolation engine of the
Servo robot-hand controller.  Definitions are shallow embeddings of the
Python source (`ServoVisualizer.py`, `robot_hand_classes.py`): angles and
wall-clock values are modelled as rationals or reals, the serial transport
as a list of emitted writes, and the cooperative timer scheduler as an
explicit state machine.  Definitions come first, theorems afterwards.
-/

namespace Servo

/-! ## Definitions: easing

Embeds `ease_in_out` (ServoVisualizer.py lines 63-66):
`t = max(0.0, min(1.0, t)); return 0.5 - 0.5 * math.cos(math.pi * t)`. -/

/-- Clamp a real number to the unit interval, as the first line of
`ease_in_out` does with `max(0.0, min(1.0, t))`. -/
def clamp01 (t : ℝ) : ℝ := max 0 (min 1 t)

/-- Cosine ease-in-out curve from the source: the input is clamped to
[0,1] and then mapped through `0.5 - 0.5*cos(pi*t)`. -/
noncomputable def ease_in_out (t : ℝ) : ℝ :=
  0.5 - 0.5 * Real.cos (Real.pi * clamp01 t)

/-! ## Definitions: tween frames

Embeds the frame loop of `_schedule_move_for_finger` / `_schedule_move`
(ServoVisualizer.py lines 989-1045, robot_hand_classes.py lines
1658-1715).  Each frame recomputes `elapsed` from the wall clock and
forms `u = elapsed / duration_ms`; if `u >= 1.0` the exact end angle is
sent with `force/always = True` and no further frame is scheduled,
otherwise the eased interpolant is sent and the next frame is armed. -/

/-- The interpolated angle a running tween sends at a given elapsed time:
`ang = start + (end - start) * ease_in_out(elapsed / duration)`. -/
noncomputable def tweenFrame (startDeg endDeg durationMs elapsed : ℝ) : ℝ :=
  startDeg + (endDeg - startDeg) * ease_in_out (elapsed / durationMs)

/-- The sequence of (angle, force/always flag) pairs a tween passes to the
send helper, given the elapsed-time samples `ts` observed at successive
frame callbacks while the timeline running flag stays true.  Mirrors
`step` in `_schedule_move_for_finger`: once `u >= 1` the end angle goes
out with the flag set and the recursion stops (no further frames are
scheduled). -/
noncomputable def tweenSends (startDeg endDeg durationMs : ℝ) :
    List ℝ → List (ℝ × Bool)
  | [] => []
  | t :: ts =>
      if 1 ≤ t / durationMs then [(endDeg, true)]
      else (tweenFrame startDeg endDeg durationMs t, false) ::
        tweenSends startDeg endDeg durationMs ts

/-! ## Definitions: command channel

Embeds the serial send helpers (ServoVisualizer.py lines 462-505,
robot_hand_classes.py lines 749-792).  A wire command is one
newline-terminated text line; one transport write (`self.ser.write` via
`_write_serial`) carries the list of lines contained in the single string
passed to it.  Angles and wall-clock seconds are rationals (the Python
floats idealised); the one-decimal formatting of the angle line does not
matter to any claim, so the payload is kept exact. -/

/-- One text line of the wire grammar: `F:<int>` or `<channel>:<angle>`. -/
inductive WireCmd where
  | selectFinger (idx : ℕ)
  | setChannel (ch : ℕ) (angle : ℚ)
deriving DecidableEq

/-- The mutable send-side state: whether the serial link is open, the
per-(finger, channel) last-sent cache `_last_sent` (deadband), and the
per-logical-channel `last_send_time` map (manual throttle). -/
structure LinkState where
  serOpen : Bool
  lastSent : ℕ × ℕ → Option ℚ
  lastSendTime : ℕ → ℚ

/-- `SEND_INTERVAL_SEC = 0.03`: the manual-throttle minimum interval. -/
def SEND_INTERVAL_SEC : ℚ := 3 / 100

/-- The deadband of `_send_finger_angle_fast`: 0.3 degrees. -/
def DEADBAND : ℚ := 3 / 10

/-- `_write_serial`: if the link is not open, silently return (no write);
otherwise perform exactly one transport write carrying the given lines.
(The exception branch tears the link down and is outside this model.) -/
def write_serial (st : LinkState) (cmds : List WireCmd) : List (List WireCmd) :=
  if st.serOpen then [cmds] else []

/-- `send_angle(logical_channel, angle, force)`: returns early when the
link is closed; when `force` is false and less than `SEND_INTERVAL_SEC`
has passed since the last send on that channel, the call is suppressed;
otherwise one line is written and `last_send_time` is updated to `now`. -/
def send_angle (st : LinkState) (now : ℚ) (ch : ℕ) (angle : ℚ)
    (force : Bool) : LinkState × List (List WireCmd) :=
  if st.serOpen = false then (st, [])
  else if force = false ∧ now - st.lastSendTime ch < SEND_INTERVAL_SEC then
    (st, [])
  else
    ({ st with lastSendTime := fun c => if c = ch then now else st.lastSendTime c },
     write_serial st [WireCmd.setChannel ch angle])

/-- The suppression test of `_send_finger_angle_fast`:
`(not always) and (prev is not None) and abs(prev - angle) < 0.3`. -/
def deadbandSuppressed (st : LinkState) (finger ch : ℕ) (angle : ℚ)
    (always : Bool) : Bool :=
  !always && (match st.lastSent (finger, ch) with
              | some prev => decide (|prev - angle| < DEADBAND)
              | none => false)

/-- `_send_finger_angle_fast(finger_index, logical_channel, angle, always)`
(the spec's `sendTargetedAngle`): unless suppressed by the deadband, it
records the angle in the `_last_sent` cache and then hands the select
line followed by the angle line to `_write_serial` in a single call (the
docstring's "in one shot"). -/
def send_finger_angle_fast (st : LinkState) (finger ch : ℕ) (angle : ℚ)
    (always : Bool) : LinkState × List (List WireCmd) :=
  if deadbandSuppressed st finger ch angle always then (st, [])
  else
    ({ st with lastSent := fun k =>
        if k = (finger, ch) then some angle else st.lastSent k },
     write_serial st [WireCmd.selectFinger finger, WireCmd.setChannel ch angle])

/-- A link that is open with an empty `_last_sent` cache and zeroed
`last_send_time`, as right after startup / after an animation start
clears the cache. -/
def openFreshLink : LinkState :=
  { serOpen := true, lastSent := fun _ => none, lastSendTime := fun _ => 0 }

/-- A closed link with empty cache, as before connecting. -/
def closedFreshLink : LinkState :=
  { serOpen := false, lastSent := fun _ => none, lastSendTime := fun _ => 0 }

/-- An open link whose `_last_sent` cache already holds 10.0 degrees for
the pair (finger 0, channel 1). -/
def cachedLink : LinkState :=
  { serOpen := true,
    lastSent := fun k => if k = (0, 1) then some 10 else none,
    lastSendTime := fun _ => 0 }

/-- An open link whose channels all last sent at wall-clock 100 s. -/
def throttledLink : LinkState :=
  { serOpen := true, lastSent := fun _ => none, lastSendTime := fun _ => 100 }

/-- The transport writes produced by two consecutive
`_send_finger_angle_fast` calls on the same (finger, channel) pair with
`always = False`, threading the cache state through. -/
def consecutiveTargetedWrites (st : LinkState) (finger ch : ℕ)
    (a1 a2 : ℚ) : List (List WireCmd) :=
  (send_finger_angle_fast st finger ch a1 false).2 ++
  (send_finger_angle_fast (send_finger_angle_fast st finger ch a1 false).1
    finger ch a2 false).2

/-- The transport writes produced by two consecutive `send_angle` calls on
the same logical channel with `force = False`, at wall-clock times `t1`
and `t2`, threading the throttle state through. -/
def consecutiveSendWrites (st : LinkState) (ch : ℕ) (a1 a2 t1 t2 : ℚ) :
    List (List WireCmd) :=
  (send_angle st t1 ch a1 false).2 ++
  (send_angle (send_angle st t1 ch a1 false).1 t2 ch a2 false).2

/-- Clearing the `_last_sent` cache, as every animation start does with
`self._last_sent = {}`. -/
def clearLastSent (st : LinkState) : LinkState :=
  { st with lastSent := fun _ => none }

/-! ## Definitions: timeline scheduler

Embeds the animation bookkeeping of the App (`anim_running`,
`anim_after_ids`, `start_animation`, `stop_animation`;
ServoVisualizer.py lines 764-923).  Each armed timer callback is tagged
with the identity of the timeline that armed it — a ghost annotation not
present in the Python, which stores only opaque handle ids — so that
"at most one timeline owns pending work" is expressible;
`nextTimeline` numbers the timelines started so far. -/

/-- Scheduler state: the `anim_running` flag, the identity of the
timeline currently owning the pending work (ghost), the pending
`anim_after_ids` entries tagged (timeline, handle), and a counter of
started timelines. -/
structure AnimState where
  animRunning : Bool
  activeTimeline : Option ℕ
  afterIds : List (ℕ × ℕ)
  nextTimeline : ℕ
deriving DecidableEq

/-- `stop_animation`: when nothing is running it returns immediately
(idempotent); otherwise it cancels every armed timer (`after_cancel`
over `anim_after_ids`), empties the list and clears the running
flag and mode. -/
def stop_animation (s : AnimState) : AnimState :=
  if s.animRunning = false then s
  else { s with afterIds := [], animRunning := false, activeTimeline := none }

/-- Common pattern of every animation start path (`start_animation`,
`thumb_touch`, `curl_four_fingers`, `all_animations`, the wave
starters): if an animation is already running, the request returns
immediately without touching anything; otherwise (after the
`stop_animation` call present in several start paths — a no-op from the
idle state) the running flag is set, the pending list is reset and the
new timeline's `frames` callbacks are armed. -/
def start_animation (s : AnimState) (frames : ℕ) : AnimState :=
  if s.animRunning = true then s
  else
    let s1 := stop_animation s
    { s1 with
      animRunning := true,
      activeTimeline := some s.nextTimeline,
      afterIds := (List.range frames).map (fun k => (s.nextTimeline, k)),
      nextTimeline := s.nextTimeline + 1 }

/-- The two scheduler operations reachable from the UI. -/
inductive AnimOp where
  | start (frames : ℕ)
  | stop
deriving DecidableEq

/-- One scheduler transition. -/
def animStep (s : AnimState) : AnimOp → AnimState
  | .start n => start_animation s n
  | .stop => stop_animation s

/-- The scheduler state at startup: idle, no pending timers. -/
def initAnimState : AnimState :=
  { animRunning := false, activeTimeline := none, afterIds := [],
    nextTimeline := 0 }

/-- Run a sequence of start/stop requests from startup. -/
def runAnim (ops : List AnimOp) : AnimState :=
  ops.foldl animStep initAnimState

/-- Every pending timer callback belongs to the single active timeline. -/
def singleOwner (s : AnimState) : Prop :=
  ∀ p ∈ s.afterIds, s.activeTimeline = some p.1

/-! ## Definitions: thumb-touch gesture

Embeds `App.thumb_touch` (ServoVisualizer.py lines 614-693,
robot_hand_classes.py lines 902-981) and
`App._schedule_thumb_touch_at_time` (robot_hand_classes.py lines
1313-1353) over the configuration tables of ServoVisualizer.py
(`FINGERS` lines 25-31, `THUMB_TOUCH_POSES` lines 41-58). -/

/-- Finger names, in the `FINGERS` order 0=Pinky .. 4=Thumb. -/
inductive FingerName where
  | pinky | ring | middle | pointer | thumb
deriving DecidableEq

/-- Index of a finger in the `FINGERS` list. -/
def fingerIndex : FingerName → ℕ
  | .pinky => 0
  | .ring => 1
  | .middle => 2
  | .pointer => 3
  | .thumb => 4

/-- The angle registry: `top_angles`, `bottom_angles`, `extra_angles`,
indexed by finger index (`extra` is `None` for fingers without an extra
servo). -/
structure HandAngles where
  top : ℕ → ℚ
  bottom : ℕ → ℚ
  extra : ℕ → Option ℚ

/-- `top_init` per finger from `FINGERS`. -/
def topInit : ℕ → ℚ := fun i => [130, 140, 140, 40, 60].getD i 0

/-- `bottom_init` per finger from `FINGERS`. -/
def bottomInit : ℕ → ℚ := fun i => [140, 55, 30, 145, 60].getD i 0

/-- `extra_init` per finger from `FINGERS` (only the Thumb has one). -/
def extraInit : ℕ → Option ℚ := fun i => if i = 4 then some 80 else none

/-- The registry as seeded at startup from `FINGERS`. -/
def initHandAngles : HandAngles :=
  { top := topInit, bottom := bottomInit, extra := extraInit }

/-- One `THUMB_TOUCH_POSES` entry: the target finger's end angles and the
thumb's end angles. -/
structure ThumbTouchPreset where
  targetBottom : ℚ
  targetTop : ℚ
  thumbBottom : ℚ
  thumbTop : ℚ
  thumbExtra : ℚ
deriving DecidableEq

/-- The `THUMB_TOUCH_POSES` table (no preset targets the thumb itself). -/
def THUMB_TOUCH_POSES : FingerName → Option ThumbTouchPreset
  | .pointer => some ⟨110, 115, 140, 115, 130⟩
  | .middle => some ⟨115, 105, 125, 110, 138⟩
  | .ring => some ⟨35, 80, 130, 105, 153⟩
  | .pinky => some ⟨100, 110, 125, 110, 167⟩
  | .thumb => none

/-- The `Pointer` entry of `THUMB_TOUCH_POSES`. -/
def pointerPreset : ThumbTouchPreset := ⟨110, 115, 140, 115, 130⟩

/-- One scheduled interpolation: the arguments of a
`_schedule_move_for_finger` call. -/
structure ScheduledTween where
  fingerIdx : ℕ
  ch : ℕ
  startDeg : ℚ
  endDeg : ℚ
  startMs : ℕ
  durationMs : ℕ
  frameMs : ℕ
deriving DecidableEq

/-- Overwrite the registry with the end pose of a thumb-touch preset for
target finger `tIdx` and the thumb (index 4); the thumb assignments come
second in the source, so they win if `tIdx` is the thumb. -/
def applyThumbTouchPose (h : HandAngles) (p : ThumbTouchPreset)
    (tIdx : ℕ) : HandAngles :=
  { top := fun i =>
      if i = 4 then p.thumbTop else if i = tIdx then p.targetTop else h.top i,
    bottom := fun i =>
      if i = 4 then p.thumbBottom
      else if i = tIdx then p.targetBottom else h.bottom i,
    extra := fun i => if i = 4 then some p.thumbExtra else h.extra i }

/-- The five tweens every thumb-touch schedules: target bottom/top plus
thumb bottom/top/extra, all with the same start offset and duration, the
start angles read live from the registry (thumb extra falls back to its
`extra_init` of 80 when absent). -/
def thumbTouchTweens (h : HandAngles) (p : ThumbTouchPreset)
    (tIdx startMs dur frame : ℕ) : List ScheduledTween :=
  [⟨tIdx, 1, h.bottom tIdx, p.targetBottom, startMs, dur, frame⟩,
   ⟨tIdx, 0, h.top tIdx, p.targetTop, startMs, dur, frame⟩,
   ⟨4, 1, h.bottom 4, p.thumbBottom, startMs, dur, frame⟩,
   ⟨4, 0, h.top 4, p.thumbTop, startMs, dur, frame⟩,
   ⟨4, 2, (h.extra 4).getD 80, p.thumbExtra, startMs, dur, frame⟩]

/-- `App.thumb_touch` (the direct button path, past its guards):
schedules the five tweens at offset 0 and overwrites the stored angles
with the end pose immediately, before any tween has run. -/
def thumb_touch (h : HandAngles) (p : ThumbTouchPreset)
    (tIdx dur frame : ℕ) : HandAngles × List ScheduledTween :=
  (applyThumbTouchPose h p tIdx, thumbTouchTweens h p tIdx 0 dur frame)

/-- `App._schedule_thumb_touch_at_time` (the sequence-compiler path):
schedules the five tweens at `start_time_ms`, leaves the stored angles
untouched at scheduling time, and arms the `update_angles` callback at
`start_time_ms + dur`, which applies the end pose only then. -/
def schedule_thumb_touch_at_time (h : HandAngles) (p : ThumbTouchPreset)
    (tIdx startMs dur frame : ℕ) :
    HandAngles × List ScheduledTween × (ℕ × (ThumbTouchPreset × ℕ)) :=
  (h, thumbTouchTweens h p tIdx startMs dur frame, (startMs + dur, (p, tIdx)))

/-! ## Definitions: sequence compiler

Embeds the action walk of `App.all_animations` (robot_hand_classes.py
lines 1067-1209) together with the span bookkeeping of
`_schedule_all_fingers_wave_at_time` (lines 1263-1311).  The walk
handles exactly three nesting levels: the top-level list (which knows
`wrist`, `delay`, `finger_wave`, `thumb_touch`, `reset_fingers`,
`curl_fingers` and `parallel`), the sub-actions of a `parallel` group
(which additionally know `sequence` but have no `delay` branch), and the
members of such a `sequence` (flat actions only).  Action shapes with no
branch at a given level fall through every `elif` in the source and are
ignored; the embedding does the same. -/

/-- The timing parameters read from the UI variables: `anim_duration_ms`,
`anim_delay1_ms`, `anim_delay2_ms`, `anim_delay3_ms`, `anim_frame_ms`,
`anim_between_fingers_ms`. -/
structure AnimParams where
  dur : ℕ
  d1 : ℕ
  d2 : ℕ
  d3 : ℕ
  frame : ℕ
  between : ℕ
deriving DecidableEq

/-- `per_finger_total`: the largest of the four segment end offsets of a
single-finger wave. -/
def perFingerTotal (p : AnimParams) : ℕ :=
  max (0 + p.dur) (max (p.d1 + p.dur)
    (max (p.d1 + p.d2 + p.dur) (p.d1 + p.d2 + p.d3 + p.dur)))

/-- `len(WAVE_ORDER)`: the four fingers Pinky, Ring, Middle, Pointer. -/
def WAVE_ORDER_LENGTH : ℕ := 4

/-- The total span `_schedule_all_fingers_wave_at_time` returns:
`(len(WAVE_ORDER) - 1) * between + per_finger_total`. -/
def waveSpan (p : AnimParams) : ℕ :=
  (WAVE_ORDER_LENGTH - 1) * p.between + perFingerTotal p

/-- The action descriptors of `ALL_ANIM_SEQUENCE`, mirroring the Python
tuples `('wrist', num, start, end, dur)`, `('delay', ms)`,
`('finger_wave',)`, `('thumb_touch', name)`, `('reset_fingers',)`,
`('curl_fingers',)`, `('parallel', [...])` and `('sequence', [...])`. -/
inductive SeqAction where
  | wrist (num : ℕ) (startA endA : ℚ) (durationMs : ℕ)
  | delay (ms : ℕ)
  | fingerWave
  | thumbTouch (name : FingerName)
  | resetFingers
  | curlFingers
  | parallel (subs : List SeqAction)
  | sequence (subs : List SeqAction)

/-- A scheduling call the compiler issues, tagged with its absolute start
offset in ms. -/
inductive SchedEvent where
  | wristMove (num : ℕ) (startA endA : ℚ) (t durationMs : ℕ)
  | waveStart (t : ℕ)
  | thumbTouchStart (name : FingerName) (t : ℕ)
  | resetAt (t : ℕ)
  | curlAt (t : ℕ)
deriving DecidableEq

/-- One member of a `sequence` nested inside `parallel`: events are
scheduled at `base + seq_time` and the internal cursor `seq_time`
advances; `reset_fingers` advances nothing, and deeper `parallel` or
`sequence` members hit no branch in the source and are ignored. -/
def compileSeqItem (p : AnimParams) (base : ℕ)
    (acc : List SchedEvent × ℕ) (a : SeqAction) : List SchedEvent × ℕ :=
  match a with
  | .wrist n s e d => (acc.1 ++ [.wristMove n s e (base + acc.2) d], acc.2 + d)
  | .delay ms => (acc.1, acc.2 + ms)
  | .fingerWave => (acc.1 ++ [.waveStart (base + acc.2)], acc.2 + waveSpan p)
  | .thumbTouch name =>
      (acc.1 ++ [.thumbTouchStart name (base + acc.2)], acc.2 + p.dur)
  | .resetFingers => (acc.1 ++ [.resetAt (base + acc.2)], acc.2)
  | .curlFingers => (acc.1 ++ [.curlAt (base + acc.2)], acc.2 + p.dur)
  | _ => acc

/-- One sub-action of a `parallel` group starting at absolute time `t`:
everything is scheduled at `t` itself (a nested `sequence` walks its own
cursor from 0 relative to `t`), and the accumulator tracks
`max_duration`; a `delay` directly inside `parallel` has no branch in
the source and is ignored, as is a nested `parallel`. -/
def compileParSub (p : AnimParams) (t : ℕ)
    (acc : List SchedEvent × ℕ) (a : SeqAction) : List SchedEvent × ℕ :=
  match a with
  | .wrist n s e d => (acc.1 ++ [.wristMove n s e t d], max acc.2 d)
  | .fingerWave => (acc.1 ++ [.waveStart t], max acc.2 (waveSpan p))
  | .thumbTouch name => (acc.1 ++ [.thumbTouchStart name t], max acc.2 p.dur)
  | .resetFingers => (acc.1 ++ [.resetAt t], acc.2)
  | .curlFingers => (acc.1 ++ [.curlAt t], max acc.2 p.dur)
  | .sequence subs =>
      let r := subs.foldl (compileSeqItem p t) (acc.1, 0)
      (r.1, max acc.2 r.2)
  | _ => acc

/-- One top-level action of the walk, threading the running cursor
`current_time`: `reset_fingers` advances nothing, `parallel` advances by
the maximum sub-duration, and a top-level `sequence` has no branch in
the source and is ignored. -/
def compileTopItem (p : AnimParams)
    (acc : List SchedEvent × ℕ) (a : SeqAction) : List SchedEvent × ℕ :=
  match a with
  | .wrist n s e d => (acc.1 ++ [.wristMove n s e acc.2 d], acc.2 + d)
  | .delay ms => (acc.1, acc.2 + ms)
  | .fingerWave => (acc.1 ++ [.waveStart acc.2], acc.2 + waveSpan p)
  | .thumbTouch name =>
      (acc.1 ++ [.thumbTouchStart name acc.2], acc.2 + p.dur)
  | .resetFingers => (acc.1 ++ [.resetAt acc.2], acc.2)
  | .curlFingers => (acc.1 ++ [.curlAt acc.2], acc.2 + p.dur)
  | .parallel subs =>
      let r := subs.foldl (compileParSub p acc.2) (acc.1, 0)
      (r.1, acc.2 + r.2)
  | .sequence _ => acc

/-- `App.all_animations`: walk the action list from cursor 0, producing
the flat set of absolute-offset scheduling calls and the final cursor
value (at which the completion callback `_all_animations_done` is
armed). -/
def all_animations (p : AnimParams) (seq : List SeqAction) :
    List SchedEvent × ℕ :=
  seq.foldl (compileTopItem p) ([], 0)

/-- The C2 scenario input:
`[parallel([sequence([delay(50), wrist(1,0,90,100)]), finger_wave()])]`. -/
def c2Input : List SeqAction :=
  [SeqAction.parallel
    [SeqAction.sequence [SeqAction.delay 50, SeqAction.wrist 1 0 90 100],
     SeqAction.fingerWave]]

/-- Timing parameters whose wave span is 1200 ms
(3 * 100 + max(600, 700, 800, 900) = 1200). -/
def c2Params : AnimParams :=
  { dur := 600, d1 := 100, d2 := 100, d3 := 100, frame := 20, between := 100 }

/-! ## Theorems: easing (C8) -/

theorem clamp01_nonneg (t : ℝ) : 0 ≤ clamp01 t := le_max_left 0 _

theorem clamp01_le_one (t : ℝ) : clamp01 t ≤ 1 :=
  max_le (by norm_num) (min_le_left 1 t)

theorem clamp01_mono : Monotone clamp01 := fun _ _ hab =>
  max_le_max le_rfl (min_le_min le_rfl hab)

theorem clamp01_of_mem (t : ℝ) (h0 : 0 ≤ t) (h1 : t ≤ 1) : clamp01 t = t := by
  unfold clamp01
  rw [min_eq_right h1, max_eq_right h0]

theorem ease_in_out_mono : Monotone ease_in_out := by
  intro a b hab
  unfold ease_in_out
  have hcos : Real.cos (Real.pi * clamp01 b) ≤ Real.cos (Real.pi * clamp01 a) := by
    apply Real.cos_le_cos_of_nonneg_of_le_pi
    · exact mul_nonneg Real.pi_pos.le (clamp01_nonneg a)
    · calc Real.pi * clamp01 b ≤ Real.pi * 1 :=
            mul_le_mul_of_nonneg_left (clamp01_le_one b) Real.pi_pos.le
        _ = Real.pi := mul_one _
    · exact mul_le_mul_of_nonneg_left (clamp01_mono hab) Real.pi_pos.le
  linarith

theorem ease_in_out_nonneg (t : ℝ) : 0 ≤ ease_in_out t := by
  have := Real.cos_le_one (Real.pi * clamp01 t)
  unfold ease_in_out
  linarith

theorem ease_in_out_le_one (t : ℝ) : ease_in_out t ≤ 1 := by
  have := Real.neg_one_le_cos (Real.pi * clamp01 t)
  unfold ease_in_out
  linarith

theorem ease_in_out_zero : ease_in_out 0 = 0 := by
  have hc : clamp01 (0 : ℝ) = 0 := clamp01_of_mem 0 le_rfl (by norm_num)
  unfold ease_in_out
  rw [hc, mul_zero, Real.cos_zero]
  norm_num

theorem ease_in_out_one : ease_in_out 1 = 1 := by
  have hc : clamp01 (1 : ℝ) = 1 := clamp01_of_mem 1 (by norm_num) le_rfl
  unfold ease_in_out
  rw [hc, mul_one, Real.cos_pi]
  norm_num

theorem ease_in_out_half : ease_in_out (1 / 2) = 1 / 2 := by
  have hc : clamp01 ((1 : ℝ) / 2) = 1 / 2 := clamp01_of_mem _ (by norm_num) (by norm_num)
  have harg : Real.pi * ((1 : ℝ) / 2) = Real.pi / 2 := by ring
  unfold ease_in_out
  rw [hc, harg, Real.cos_pi_div_two]
  norm_num

theorem ease_in_out_symm (u : ℝ) (h0 : 0 ≤ u) (h1 : u ≤ 1) :
    ease_in_out u = 1 - ease_in_out (1 - u) := by
  have hcu : clamp01 u = u := clamp01_of_mem u h0 h1
  have hcv : clamp01 (1 - u) = 1 - u := clamp01_of_mem _ (by linarith) (by linarith)
  have harg : Real.pi * (1 - u) = Real.pi - Real.pi * u := by ring
  unfold ease_in_out
  rw [hcu, hcv, harg, Real.cos_pi_sub]
  ring

theorem ease_in_out_clamp (t : ℝ) : ease_in_out t = ease_in_out (clamp01 t) := by
  have : clamp01 (clamp01 t) = clamp01 t :=
    clamp01_of_mem _ (clamp01_nonneg t) (clamp01_le_one t)
  unfold ease_in_out
  rw [this]

/-- C8: the easing function satisfies `ease(0)=0`, `ease(1)=1`,
`ease(0.5)=0.5`, the symmetry `ease(u) = 1 - ease(1-u)` on [0,1], is
monotonically non-decreasing (even globally, thanks to the clamp), and
inputs outside [0,1] are clamped before application; being a total
function of type `ℝ → ℝ` it never fails. -/
theorem C8_ease_properties :
    ease_in_out 0 = 0 ∧ ease_in_out 1 = 1 ∧ ease_in_out (1 / 2) = 1 / 2 ∧
    (∀ u : ℝ, 0 ≤ u → u ≤ 1 → ease_in_out u = 1 - ease_in_out (1 - u)) ∧
    (∀ a b : ℝ, a ≤ b → ease_in_out a ≤ ease_in_out b) ∧
    (∀ t : ℝ, ease_in_out t = ease_in_out (clamp01 t)) :=
  ⟨ease_in_out_zero, ease_in_out_one, ease_in_out_half,
   ease_in_out_symm, fun _ _ hab => ease_in_out_mono hab,
   ease_in_out_clamp⟩

/-- Witness for C8: the quantified parts instantiated at concrete points. -/
theorem C8_ease_properties_witness :
    (0 : ℝ) ≤ 1 / 4 ∧ (1 / 4 : ℝ) ≤ 1 ∧
    ease_in_out (1 / 4) = 1 - ease_in_out (1 - 1 / 4) ∧
    ease_in_out (1 / 4) ≤ ease_in_out (3 / 4) :=
  ⟨by norm_num, by norm_num,
   C8_ease_properties.2.2.2.1 (1 / 4) (by norm_num) (by norm_num),
   C8_ease_properties.2.2.2.2.1 (1 / 4) (3 / 4) (by norm_num)⟩

/-! ## Theorems: tween completion (C1) -/

theorem tweenFrame_dist_mono (s e dur : ℝ) (hdur : 0 < dur)
    {t u : ℝ} (htu : t ≤ u) :
    |e - tweenFrame s e dur u| ≤ |e - tweenFrame s e dur t| := by
  have hkey : ∀ x : ℝ, e - tweenFrame s e dur x =
      (e - s) * (1 - ease_in_out (x / dur)) := by
    intro x
    unfold tweenFrame
    ring
  rw [hkey, hkey, abs_mul, abs_mul]
  apply mul_le_mul_of_nonneg_left _ (abs_nonneg (e - s))
  rw [abs_of_nonneg (by linarith [ease_in_out_le_one (u / dur)]),
      abs_of_nonneg (by linarith [ease_in_out_le_one (t / dur)])]
  have hdiv : t / dur ≤ u / dur := by gcongr
  linarith [ease_in_out_mono hdiv]

theorem tweenSends_completes (s e dur : ℝ) (hdur : 0 < dur) :
    ∀ ts : List ℝ, (∃ t ∈ ts, dur ≤ t) →
    ∃ pre, tweenSends s e dur ts = pre ++ [(e, true)] ∧
      ∀ q ∈ pre, q.2 = false := by
  intro ts
  induction ts with
  | nil => rintro ⟨t, ht, -⟩; simp at ht
  | cons t ts ih =>
      rintro ⟨t0, ht0, hdone⟩
      by_cases hfin : 1 ≤ t / dur
      · refine ⟨[], ?_, by simp⟩
        simp [tweenSends, hfin]
      · have htlt : t < dur := by
          by_contra hge
          exact hfin ((one_le_div hdur).mpr (le_of_not_lt hge))
        have ht0ts : t0 ∈ ts := by
          rcases List.mem_cons.mp ht0 with h | h
          · exact absurd (h ▸ hdone) (not_le.mpr htlt)
          · exact h
        obtain ⟨pre, hpre, hflags⟩ := ih ⟨t0, ht0ts, hdone⟩
        refine ⟨(tweenFrame s e dur t, false) :: pre, ?_, ?_⟩
        · simp [tweenSends, hfin, hpre]
        · intro q hq
          rcases List.mem_cons.mp hq with h | h
          · rw [h]
          · exact hflags q h

theorem tweenSends_chain (s e dur : ℝ) (hdur : 0 < dur) :
    ∀ ts : List ℝ, List.Chain' (· ≤ ·) ts →
    List.Chain' (fun a b : ℝ × Bool => |e - b.1| ≤ |e - a.1|)
      (tweenSends s e dur ts) := by
  intro ts
  induction ts with
  | nil => intro _; simp [tweenSends]
  | cons t ts ih =>
      intro hm
      by_cases hfin : 1 ≤ t / dur
      · simp [tweenSends, hfin]
      · have htail : List.Chain' (· ≤ ·) ts := hm.tail
        rw [show tweenSends s e dur (t :: ts) =
            (tweenFrame s e dur t, false) :: tweenSends s e dur ts by
          simp [tweenSends, hfin]]
        rw [List.chain'_cons']
        refine ⟨?_, ih htail⟩
        intro y hy
        cases ts with
        | nil => simp [tweenSends] at hy
        | cons t2 ts2 =>
            have ht12 : t ≤ t2 := (List.chain'_cons.mp hm).1
            by_cases hfin2 : 1 ≤ t2 / dur
            · simp [tweenSends, hfin2] at hy
              subst hy
              simp
            · simp [tweenSends, hfin2] at hy
              subst hy
              simpa using tweenFrame_dist_mono s e dur hdur ht12

/-- C1: for a tween with positive duration that runs to completion (the
running flag stays true so every frame callback fires, and the clock
samples are monotone — arbitrary frame period and jitter), the angles
passed to the send helper monotonically approach the end angle, the
final send is exactly the end angle with the force/always flag set, and
no frame follows the completing one. -/
theorem C1_tween_completion (s e dur : ℝ) (ts : List ℝ)
    (hdur : 0 < dur)
    (hmono : List.Chain' (· ≤ ·) ts)
    (hdone : ∃ t ∈ ts, dur ≤ t) :
    (∃ pre, tweenSends s e dur ts = pre ++ [(e, true)] ∧
      ∀ q ∈ pre, q.2 = false) ∧
    List.Chain' (fun a b : ℝ × Bool => |e - b.1| ≤ |e - a.1|)
      (tweenSends s e dur ts) :=
  ⟨tweenSends_completes s e dur hdur ts hdone,
   tweenSends_chain s e dur hdur ts hmono⟩

/-- Witness for C1: a concrete tween (0 → 1 over 2 ms) sampled at elapsed
times 1 and 2. -/
theorem C1_tween_completion_witness :
    (0 : ℝ) < 2 ∧ List.Chain' (· ≤ ·) [(1 : ℝ), 2] ∧
    (∃ t ∈ [(1 : ℝ), 2], (2 : ℝ) ≤ t) ∧
    ((∃ pre, tweenSends 0 1 2 [(1 : ℝ), 2] = pre ++ [((1 : ℝ), true)] ∧
        ∀ q ∈ pre, q.2 = false) ∧
      List.Chain' (fun a b : ℝ × Bool => |(1 : ℝ) - b.1| ≤ |1 - a.1|)
        (tweenSends 0 1 2 [(1 : ℝ), 2])) :=
  ⟨by norm_num, by simp, ⟨2, by simp, le_refl 2⟩,
   C1_tween_completion 0 1 2 [1, 2] (by norm_num) (by simp)
     ⟨2, by simp, le_refl 2⟩⟩

/-! ## Theorems: command channel (C5, C6, C7, C9, C10) -/

theorem write_serial_open {st : LinkState} (h : st.serOpen = true)
    (cmds : List WireCmd) : write_serial st cmds = [cmds] := by
  unfold write_serial
  rw [h]
  simp

theorem write_serial_closed {st : LinkState} (h : st.serOpen = false)
    (cmds : List WireCmd) : write_serial st cmds = [] := by
  unfold write_serial
  rw [h]
  simp

theorem send_fast_suppressed {st : LinkState} {finger ch : ℕ} {a : ℚ}
    {always : Bool}
    (h : deadbandSuppressed st finger ch a always = true) :
    send_finger_angle_fast st finger ch a always = (st, []) := by
  unfold send_finger_angle_fast
  rw [h]
  simp

theorem send_fast_go {st : LinkState} {finger ch : ℕ} {a : ℚ} {always : Bool}
    (h : deadbandSuppressed st finger ch a always = false) :
    send_finger_angle_fast st finger ch a always =
      ({ st with lastSent := fun k =>
          if k = (finger, ch) then some a else st.lastSent k },
       write_serial st [WireCmd.selectFinger finger, WireCmd.setChannel ch a]) := by
  unfold send_finger_angle_fast
  rw [h]
  simp

theorem send_fast_len (st : LinkState) (finger ch : ℕ) (a : ℚ)
    (always : Bool) :
    (send_finger_angle_fast st finger ch a always).2.length ≤ 1 := by
  cases h : deadbandSuppressed st finger ch a always
  · rw [send_fast_go h]
    cases ho : st.serOpen
    · rw [write_serial_closed ho]
      simp
    · rw [write_serial_open ho]
      simp
  · rw [send_fast_suppressed h]
    simp

theorem sendAngle_closed {st : LinkState} (now : ℚ) (ch : ℕ) (a : ℚ)
    (force : Bool) (h : st.serOpen = false) :
    send_angle st now ch a force = (st, []) := by
  unfold send_angle
  rw [h]
  simp

theorem sendAngle_throttled {st : LinkState} {now : ℚ} {ch : ℕ} (a : ℚ)
    (hopen : st.serOpen = true)
    (h : now - st.lastSendTime ch < SEND_INTERVAL_SEC) :
    send_angle st now ch a false = (st, []) := by
  unfold send_angle
  rw [hopen]
  simp [h]

theorem sendAngle_go {st : LinkState} {now : ℚ} {ch : ℕ} (a : ℚ)
    (hopen : st.serOpen = true)
    (h : SEND_INTERVAL_SEC ≤ now - st.lastSendTime ch) :
    send_angle st now ch a false =
      ({ st with lastSendTime := fun c => if c = ch then now else st.lastSendTime c },
       [[WireCmd.setChannel ch a]]) := by
  unfold send_angle
  rw [hopen]
  rw [write_serial_open hopen]
  simp [not_lt.mpr h]

theorem sendAngle_len (st : LinkState) (now : ℚ) (ch : ℕ) (a : ℚ) :
    (send_angle st now ch a false).2.length ≤ 1 := by
  cases ho : st.serOpen
  · rw [sendAngle_closed now ch a false ho]
    simp
  · by_cases hth : now - st.lastSendTime ch < SEND_INTERVAL_SEC
    · rw [sendAngle_throttled a ho hth]
      simp
    · rw [sendAngle_go a ho (not_lt.mp hth)]
      simp

/-- Counterexample for C5: a non-suppressed `sendTargetedAngle` call on an
open link emits ONE transport write (carrying both lines), not two. -/
theorem C5_counterexample :
    (send_finger_angle_fast openFreshLink 3 1 (973 / 10) false).2 =
      [[WireCmd.selectFinger 3, WireCmd.setChannel 1 (973 / 10)]] ∧
    (send_finger_angle_fast openFreshLink 3 1 (973 / 10) false).2.length ≠ 2 := by
  have hns : deadbandSuppressed openFreshLink 3 1 (973 / 10) false = false := by
    simp [deadbandSuppressed, openFreshLink]
  rw [send_fast_go hns, write_serial_open (by rfl)]
  simp

/-- C5 amended: for every non-suppressed `sendTargetedAngle` call on an
open link, the select-target line precedes the angle line on the wire,
but both are emitted as a SINGLE transport write (one `_write_serial`
call), not two. -/
theorem C5_single_write (st : LinkState) (finger ch : ℕ) (angle : ℚ)
    (always : Bool)
    (hopen : st.serOpen = true)
    (hns : deadbandSuppressed st finger ch angle always = false) :
    (send_finger_angle_fast st finger ch angle always).2 =
      [[WireCmd.selectFinger finger, WireCmd.setChannel ch angle]] := by
  rw [send_fast_go hns, write_serial_open hopen]

/-- Witness for C5's amended theorem. -/
theorem C5_single_write_witness :
    openFreshLink.serOpen = true ∧
    deadbandSuppressed openFreshLink 2 0 90 false = false ∧
    (send_finger_angle_fast openFreshLink 2 0 90 false).2 =
      [[WireCmd.selectFinger 2, WireCmd.setChannel 0 90]] :=
  ⟨rfl, by simp [deadbandSuppressed, openFreshLink],
   C5_single_write openFreshLink 2 0 90 false rfl
     (by simp [deadbandSuppressed, openFreshLink])⟩

/-- Counterexample for C6: with a previously cached value `10.0` for the
pair, two consecutive calls with angles `10.1` and `10.15` (differing by
0.05 < 0.3) are BOTH suppressed, so zero transport writes occur, not
one. -/
theorem C6_counterexample :
    |(101 / 10 : ℚ) - 1015 / 100| < 3 / 10 ∧
    consecutiveTargetedWrites cachedLink 0 1 (101 / 10) (1015 / 100) = [] := by
  have hd1 : deadbandSuppressed cachedLink 0 1 (101 / 10) false = true := by
    simp [deadbandSuppressed, cachedLink, DEADBAND]
    rw [abs_lt]
    constructor <;> norm_num
  have hd2 : deadbandSuppressed cachedLink 0 1 (1015 / 100) false = true := by
    simp [deadbandSuppressed, cachedLink, DEADBAND]
    rw [abs_lt]
    constructor <;> norm_num
  refine ⟨by rw [abs_lt]; constructor <;> norm_num, ?_⟩
  unfold consecutiveTargetedWrites
  rw [send_fast_suppressed hd1]
  simp [send_fast_suppressed hd2]

/-- C6 amended: with `always = False` and two consecutive
`sendTargetedAngle` calls on the same pair whose angles differ by less
than 0.3 degrees, AT MOST one transport write occurs; and when the pair
has no cached last-sent value before the first call and the link is
open, exactly one write occurs and the second call is the one suppressed
by the deadband. -/
theorem C6_deadband (st : LinkState) (finger ch : ℕ) (a1 a2 : ℚ)
    (hdiff : |a1 - a2| < DEADBAND) :
    (consecutiveTargetedWrites st finger ch a1 a2).length ≤ 1 ∧
    (st.serOpen = true → st.lastSent (finger, ch) = none →
      (consecutiveTargetedWrites st finger ch a1 a2).length = 1 ∧
      deadbandSuppressed (send_finger_angle_fast st finger ch a1 false).1
        finger ch a2 false = true) := by
  cases h1 : deadbandSuppressed st finger ch a1 false
  · -- first call not suppressed: cache now holds a1, second is suppressed
    have hcache : (send_finger_angle_fast st finger ch a1 false).1.lastSent
        (finger, ch) = some a1 := by
      rw [send_fast_go h1]
      simp
    have hs2 : deadbandSuppressed (send_finger_angle_fast st finger ch a1 false).1
        finger ch a2 false = true := by
      unfold deadbandSuppressed
      rw [hcache]
      simpa using hdiff
    constructor
    · unfold consecutiveTargetedWrites
      rw [send_fast_suppressed hs2]
      simpa using send_fast_len st finger ch a1 false
    · intro hopen _
      refine ⟨?_, hs2⟩
      unfold consecutiveTargetedWrites
      rw [send_fast_suppressed hs2, send_fast_go h1, write_serial_open hopen]
      simp
  · -- first call suppressed: state unchanged, at most the second writes
    have hfst := send_fast_suppressed h1
    constructor
    · unfold consecutiveTargetedWrites
      rw [hfst]
      simpa using send_fast_len st finger ch a2 false
    · intro _ hnone
      exfalso
      unfold deadbandSuppressed at h1
      rw [hnone] at h1
      simp at h1

/-- Witness for C6's amended theorem: fresh open link, angles 10 and
10.1. -/
theorem C6_deadband_witness :
    |(10 : ℚ) - 101 / 10| < DEADBAND ∧
    ((consecutiveTargetedWrites openFreshLink 0 1 10 (101 / 10)).length ≤ 1 ∧
    (openFreshLink.serOpen = true → openFreshLink.lastSent (0, 1) = none →
      (consecutiveTargetedWrites openFreshLink 0 1 10 (101 / 10)).length = 1 ∧
      deadbandSuppressed (send_finger_angle_fast openFreshLink 0 1 10 false).1
        0 1 (101 / 10) false = true)) :=
  ⟨by unfold DEADBAND; rw [abs_lt]; constructor <;> norm_num,
   C6_deadband openFreshLink 0 1 10 (101 / 10)
     (by unfold DEADBAND; rw [abs_lt]; constructor <;> norm_num)⟩

/-- Counterexample for C7: the channel's `last_send_time` is 100 s; two
calls at 100.01 s and 100.02 s (10 ms apart) are BOTH throttled, so zero
transport writes occur, not one. -/
theorem C7_counterexample :
    (10002 / 100 : ℚ) - 10001 / 100 < SEND_INTERVAL_SEC ∧
    consecutiveSendWrites throttledLink 0 90 91 (10001 / 100) (10002 / 100) = [] := by
  have h1 : send_angle throttledLink (10001 / 100) 0 90 false =
      (throttledLink, []) := by
    apply sendAngle_throttled 90 (by rfl)
    norm_num [throttledLink, SEND_INTERVAL_SEC]
  have h2 : send_angle throttledLink (10002 / 100) 0 91 false =
      (throttledLink, []) := by
    apply sendAngle_throttled 91 (by rfl)
    norm_num [throttledLink, SEND_INTERVAL_SEC]
  refine ⟨by norm_num [SEND_INTERVAL_SEC], ?_⟩
  unfold consecutiveSendWrites
  rw [h1]
  simp [h2]

/-- C7 amended: with `force = False`, two `send_angle` calls on the same
logical channel less than 30 ms apart produce AT MOST one transport
write; and when the link is open and at least 30 ms have elapsed between
the channel's previous send and the first call, exactly one write occurs
and the second call is the one suppressed by the throttle. -/
theorem C7_throttle (st : LinkState) (ch : ℕ) (a1 a2 t1 t2 : ℚ)
    (hgap : t2 - t1 < SEND_INTERVAL_SEC) :
    (consecutiveSendWrites st ch a1 a2 t1 t2).length ≤ 1 ∧
    (st.serOpen = true → SEND_INTERVAL_SEC ≤ t1 - st.lastSendTime ch →
      (consecutiveSendWrites st ch a1 a2 t1 t2).length = 1 ∧
      (send_angle (send_angle st t1 ch a1 false).1 t2 ch a2 false).2 = []) := by
  cases hopen : st.serOpen
  · -- link closed: both calls return early, zero writes
    have hfst := sendAngle_closed t1 ch a1 false hopen
    constructor
    · unfold consecutiveSendWrites
      rw [hfst]
      simp [sendAngle_closed t2 ch a2 false hopen]
    · intro h _
      simp at h
  · by_cases hth1 : t1 - st.lastSendTime ch < SEND_INTERVAL_SEC
    · -- first call throttled: state unchanged, at most the second writes
      have hfst := sendAngle_throttled a1 hopen hth1
      constructor
      · unfold consecutiveSendWrites
        rw [hfst]
        simpa using sendAngle_len st t2 ch a2
      · intro _ hfresh
        exact absurd hth1 (not_lt.mpr hfresh)
    · -- first call writes: its timestamp t1 throttles the second call
      have hfst := sendAngle_go a1 hopen (not_lt.mp hth1)
      have hopen1 : (send_angle st t1 ch a1 false).1.serOpen = true := by
        rw [hfst]
        exact hopen
      have hts1 : (send_angle st t1 ch a1 false).1.lastSendTime ch = t1 := by
        rw [hfst]
        simp
      have hsnd : send_angle (send_angle st t1 ch a1 false).1 t2 ch a2 false =
          ((send_angle st t1 ch a1 false).1, []) := by
        apply sendAngle_throttled a2 hopen1
        rw [hts1]
        exact hgap
      constructor
      · unfold consecutiveSendWrites
        rw [hsnd, hfst]
        simp
      · intro _ _
        refine ⟨?_, by rw [hsnd]⟩
        unfold consecutiveSendWrites
        rw [hsnd, hfst]
        simp

/-- Witness for C7's amended theorem: fresh open link (previous send at
time 0), calls at 1 s and 1.01 s. -/
theorem C7_throttle_witness :
    (101 / 100 : ℚ) - 1 < SEND_INTERVAL_SEC ∧
    ((consecutiveSendWrites openFreshLink 0 90 91 1 (101 / 100)).length ≤ 1 ∧
    (openFreshLink.serOpen = true →
      SEND_INTERVAL_SEC ≤ 1 - openFreshLink.lastSendTime 0 →
      (consecutiveSendWrites openFreshLink 0 90 91 1 (101 / 100)).length = 1 ∧
      (send_angle (send_angle openFreshLink 1 0 90 false).1 (101 / 100)
        0 91 false).2 = [])) :=
  ⟨by norm_num [SEND_INTERVAL_SEC],
   C7_throttle openFreshLink 0 90 91 1 (101 / 100)
     (by norm_num [SEND_INTERVAL_SEC])⟩

/-- C9: `sendTargetedAngle` updates the `_last_sent` deadband cache even
when the serial link is closed (the write helper silently drops the
bytes), so a later call with a nearly identical angle is suppressed by
the deadband although nothing for that pair ever reached the wire. -/
theorem C9_closed_link_cache (st : LinkState) (finger ch : ℕ) (a1 a2 : ℚ)
    (hclosed : st.serOpen = false)
    (hns : deadbandSuppressed st finger ch a1 false = false)
    (hdiff : |a1 - a2| < DEADBAND) :
    (∀ cmds, write_serial st cmds = []) ∧
    (send_finger_angle_fast st finger ch a1 false).2 = [] ∧
    (send_finger_angle_fast st finger ch a1 false).1.lastSent (finger, ch) =
      some a1 ∧
    (send_finger_angle_fast (send_finger_angle_fast st finger ch a1 false).1
      finger ch a2 false).2 = [] := by
  have hcache : (send_finger_angle_fast st finger ch a1 false).1.lastSent
      (finger, ch) = some a1 := by
    rw [send_fast_go hns]
    simp
  have hs2 : deadbandSuppressed (send_finger_angle_fast st finger ch a1 false).1
      finger ch a2 false = true := by
    unfold deadbandSuppressed
    rw [hcache]
    simpa using hdiff
  refine ⟨write_serial_closed hclosed, ?_, hcache, ?_⟩
  · rw [send_fast_go hns, write_serial_closed hclosed]
  · rw [send_fast_suppressed hs2]

/-- Witness for C9: closed fresh link, angles 10 and 10.1. -/
theorem C9_closed_link_cache_witness :
    closedFreshLink.serOpen = false ∧
    deadbandSuppressed closedFreshLink 0 1 10 false = false ∧
    |(10 : ℚ) - 101 / 10| < DEADBAND ∧
    ((∀ cmds, write_serial closedFreshLink cmds = []) ∧
      (send_finger_angle_fast closedFreshLink 0 1 10 false).2 = [] ∧
      (send_finger_angle_fast closedFreshLink 0 1 10 false).1.lastSent
        (0, 1) = some 10 ∧
      (send_finger_angle_fast
        (send_finger_angle_fast closedFreshLink 0 1 10 false).1
        0 1 (101 / 10) false).2 = []) :=
  ⟨rfl, by simp [deadbandSuppressed, closedFreshLink],
   by unfold DEADBAND; rw [abs_lt]; constructor <;> norm_num,
   C9_closed_link_cache closedFreshLink 0 1 10 (101 / 10) rfl
     (by simp [deadbandSuppressed, closedFreshLink])
     (by unfold DEADBAND; rw [abs_lt]; constructor <;> norm_num)⟩

/-- C10: the first `sendTargetedAngle` call for a (finger, channel) pair
whose cache entry is absent — as after every animation start clears the
cache — is never suppressed by the deadband, even with `always = False`
and any angle whatsoever: it records the angle and, when the link is
open, emits its write. -/
theorem C10_first_send_not_suppressed (st : LinkState) (finger ch : ℕ)
    (a : ℚ) (hfresh : st.lastSent (finger, ch) = none) :
    deadbandSuppressed st finger ch a false = false ∧
    (send_finger_angle_fast st finger ch a false).1.lastSent (finger, ch) =
      some a ∧
    (st.serOpen = true → (send_finger_angle_fast st finger ch a false).2 =
      [[WireCmd.selectFinger finger, WireCmd.setChannel ch a]]) ∧
    (∀ st2 : LinkState, (clearLastSent st2).lastSent (finger, ch) = none) := by
  have hns : deadbandSuppressed st finger ch a false = false := by
    unfold deadbandSuppressed
    rw [hfresh]
    simp
  refine ⟨hns, ?_, ?_, fun st2 => rfl⟩
  · rw [send_fast_go hns]
    simp
  · intro hopen
    rw [send_fast_go hns, write_serial_open hopen]

/-- Witness for C10: fresh open link, an angle a twentieth of a degree
away from any plausible hardware pose — still sent. -/
theorem C10_first_send_not_suppressed_witness :
    openFreshLink.lastSent (3, 1) = none ∧
    (deadbandSuppressed openFreshLink 3 1 (1 / 20) false = false ∧
      (send_finger_angle_fast openFreshLink 3 1 (1 / 20) false).1.lastSent
        (3, 1) = some (1 / 20) ∧
      (openFreshLink.serOpen = true →
        (send_finger_angle_fast openFreshLink 3 1 (1 / 20) false).2 =
          [[WireCmd.selectFinger 3, WireCmd.setChannel 1 (1 / 20)]]) ∧
      (∀ st2 : LinkState, (clearLastSent st2).lastSent (3, 1) = none)) :=
  ⟨rfl, C10_first_send_not_suppressed openFreshLink 3 1 (1 / 20) rfl⟩

/-! ## Theorems: timeline scheduler (C3) -/

theorem animStep_singleOwner {s : AnimState} (h : singleOwner s)
    (op : AnimOp) : singleOwner (animStep s op) := by
  cases op with
  | stop =>
      unfold animStep stop_animation
      by_cases hr : s.animRunning = false
      · simpa [hr] using h
      · simp [hr, singleOwner]
  | start n =>
      unfold animStep start_animation
      by_cases hr : s.animRunning = true
      · simpa [hr] using h
      · simp [hr, singleOwner]

theorem runAnim_aux (ops : List AnimOp) :
    ∀ s : AnimState, singleOwner s → singleOwner (ops.foldl animStep s) := by
  induction ops with
  | nil => intro s h; exact h
  | cons op ops ih =>
      intro s h
      exact ih _ (animStep_singleOwner h op)

/-- Counterexample for C3's cancellation clause: with a 2-frame timeline
running, a second start request leaves the state exactly as it was — the
first timeline keeps running, its pending frames survive, and no frame
of the requested timeline is scheduled (so the old one was NOT cancelled
first). -/
theorem C3_counterexample :
    (runAnim [AnimOp.start 2]).animRunning = true ∧
    runAnim [AnimOp.start 2, AnimOp.start 3] = runAnim [AnimOp.start 2] ∧
    (runAnim [AnimOp.start 2, AnimOp.start 3]).activeTimeline = some 0 ∧
    (runAnim [AnimOp.start 2, AnimOp.start 3]).afterIds = [(0, 0), (0, 1)] := by
  refine ⟨rfl, rfl, rfl, rfl⟩

/-- C3 amended: at most one timeline owns pending scheduled work at any
reachable state (the single-active-timeline invariant holds), but its
enforcement mechanism is rejection, not cancellation: a start request
made while an animation is running is ignored entirely (the guard
`if self.anim_running: return` fires before the `stop_animation` call,
which therefore only ever runs from the idle state, where it is a
no-op). -/
theorem C3_single_timeline (ops : List AnimOp) :
    singleOwner (runAnim ops) ∧
    (∀ s : AnimState, ∀ n : ℕ, s.animRunning = true →
      start_animation s n = s) := by
  constructor
  · exact runAnim_aux ops initAnimState (by simp [singleOwner, initAnimState])
  · intro s n hs
    unfold start_animation
    rw [hs]
    simp

/-- Witness for C3's amended theorem: a concrete request trace, and a
rejected start against a concretely running state. -/
theorem C3_single_timeline_witness :
    singleOwner (runAnim [AnimOp.start 2, AnimOp.stop, AnimOp.start 1]) ∧
    ((runAnim [AnimOp.start 2]).animRunning = true ∧
      start_animation (runAnim [AnimOp.start 2]) 5 = runAnim [AnimOp.start 2]) :=
  ⟨(C3_single_timeline [AnimOp.start 2, AnimOp.stop, AnimOp.start 1]).1,
   rfl, (C3_single_timeline []).2 (runAnim [AnimOp.start 2]) 5 rfl⟩

/-! ## Theorems: thumb-touch state timing (C4) -/

/-- Counterexample for C4: for the sequence-compiled thumb-touch
(`_schedule_thumb_touch_at_time`, Pointer preset, scheduled at 100 ms
with the default 650 ms duration) the registry still holds the Pointer's
old bottom angle (the 145-degree init value, not the 110-degree preset
end) when the scheduling call returns; the overwrite is armed as a
callback at 100 + 650 = 750 ms, i.e. at nominal completion, refuting
"overwritten immediately when the gesture is scheduled" for this
gesture path. -/
theorem C4_counterexample :
    THUMB_TOUCH_POSES FingerName.pointer = some pointerPreset ∧
    (schedule_thumb_touch_at_time initHandAngles pointerPreset
      3 100 650 20).1.bottom 3 = 145 ∧
    pointerPreset.targetBottom = 110 ∧
    (145 : ℚ) ≠ 110 ∧
    (schedule_thumb_touch_at_time initHandAngles pointerPreset
      3 100 650 20).2.2 = (750, (pointerPreset, 3)) := by
  refine ⟨rfl, rfl, rfl, by norm_num, rfl⟩

/-- C4 amended: the direct `thumb_touch` button path overwrites the
stored angles with the preset end pose immediately upon scheduling,
while the sequence-compiled `_schedule_thumb_touch_at_time` path leaves
them untouched at scheduling time and defers the overwrite to a callback
at `start_time_ms + duration` (nominal tween completion). -/
theorem C4_pose_update_timing (h : HandAngles) (p : ThumbTouchPreset)
    (tIdx startMs dur frame : ℕ) (hnt : tIdx ≠ 4) :
    ((thumb_touch h p tIdx dur frame).1.bottom tIdx = p.targetBottom ∧
      (thumb_touch h p tIdx dur frame).1.top tIdx = p.targetTop ∧
      (thumb_touch h p tIdx dur frame).1.bottom 4 = p.thumbBottom ∧
      (thumb_touch h p tIdx dur frame).1.top 4 = p.thumbTop ∧
      (thumb_touch h p tIdx dur frame).1.extra 4 = some p.thumbExtra) ∧
    (schedule_thumb_touch_at_time h p tIdx startMs dur frame).1 = h ∧
    (schedule_thumb_touch_at_time h p tIdx startMs dur frame).2.2 =
      (startMs + dur, (p, tIdx)) := by
  refine ⟨⟨?_, ?_, ?_, ?_, ?_⟩, rfl, rfl⟩ <;>
    simp [thumb_touch, applyThumbTouchPose, hnt]

/-- Witness for C4's amended theorem: the Pointer gesture on the startup
pose. -/
theorem C4_pose_update_timing_witness :
    (3 : ℕ) ≠ 4 ∧
    (((thumb_touch initHandAngles pointerPreset 3 650 20).1.bottom 3 =
        pointerPreset.targetBottom ∧
      (thumb_touch initHandAngles pointerPreset 3 650 20).1.top 3 =
        pointerPreset.targetTop ∧
      (thumb_touch initHandAngles pointerPreset 3 650 20).1.bottom 4 =
        pointerPreset.thumbBottom ∧
      (thumb_touch initHandAngles pointerPreset 3 650 20).1.top 4 =
        pointerPreset.thumbTop ∧
      (thumb_touch initHandAngles pointerPreset 3 650 20).1.extra 4 =
        some pointerPreset.thumbExtra) ∧
    (schedule_thumb_touch_at_time initHandAngles pointerPreset
      3 100 650 20).1 = initHandAngles ∧
    (schedule_thumb_touch_at_time initHandAngles pointerPreset
      3 100 650 20).2.2 = (100 + 650, (pointerPreset, 3))) :=
  ⟨by norm_num,
   C4_pose_update_timing initHandAngles pointerPreset 3 100 650 20
     (by norm_num)⟩

/-! ## Theorems: sequence compiler (C2) -/

/-- C2: compiling
`[parallel([sequence([delay(50), wrist(1,0,90,100)]), finger_wave()])]`
with any timing parameters whose wave span is 1200 ms advances the outer
cursor by max(150, 1200) = 1200 (the parallel group's span), and the
inner wrist tween is scheduled at absolute offset 50 (0 + 50 from the
parallel group's start). -/
theorem C2_parallel_sequence (p : AnimParams) (hspan : waveSpan p = 1200) :
    (all_animations p c2Input).2 = 1200 ∧
    SchedEvent.wristMove 1 0 90 50 100 ∈ (all_animations p c2Input).1 := by
  have hev : all_animations p c2Input =
      ([SchedEvent.wristMove 1 0 90 50 100, SchedEvent.waveStart 0],
        max 150 (waveSpan p)) := by
    simp [all_animations, c2Input, compileTopItem, compileParSub,
      compileSeqItem]
  rw [hev, hspan]
  constructor
  · norm_num
  · simp

/-- Witness for C2: concrete parameters (duration 600, delays 100/100/100,
between 100) whose wave span is exactly 1200 ms. -/
theorem C2_parallel_sequence_witness :
    waveSpan c2Params = 1200 ∧
    ((all_animations c2Params c2Input).2 = 1200 ∧
      SchedEvent.wristMove 1 0 90 50 100 ∈ (all_animations c2Params c2Input).1) :=
  ⟨rfl, C2_parallel_sequence c2Params rfl⟩

end Servo
